import Mathlib

/-!
Shallow embedding of the collaborative 3D-scene editor (designo).

The embedded operations follow the TypeScript source:
- `computeDiff`, `saveNowEvents` embed the diff/broadcast block of `saveNow`
  (src/pages/Editor.tsx, lines 79-105);
- `handleObjectChange` embeds the inbound socket handler
  (src/pages/Editor.tsx, lines 139-160);
- `onDeleteObject`, `onUpdateObject` embed the local mutation paths
  (src/pages/Editor.tsx, lines 238-252 and 276-286);
- `debouncedCameraChange` / `runCalls` embed the 500ms camera debounce
  (src/pages/Editor.tsx, lines 108-125);
- `buildObject3DTransform` embeds the transform validation of `buildObject3D`
  (src/components/ThreeViewport.tsx, lines 534-551);
- `singleClickResolve` embeds the single-click timer callback of `onMouseClick`
  (src/components/ThreeViewport.tsx, lines 682-704);
- `renderableAnnos` embeds the render-time filter of dangling annotations
  (src/components/ThreeViewport.tsx, lines 782-789);
- `updateProject` embeds `ProjectService.updateProject`
  (backend/src/services/projectService.ts, lines 85-106).

JavaScript numbers are embedded as `JsNum`: a rational when finite, or one of
the non-finite values NaN / Infinity / -Infinity, which is all the structure
the embedded code inspects (`isFinite`, comparison with zero, equality).
`JSON.stringify` comparison of two scene objects is embedded through
`SceneObject.toJson`, which maps each number to its serialized JSON value —
`some q` for a finite number, `none` for the literal `null` that
`JSON.stringify` produces for NaN, Infinity and -Infinity — and leaves all
other content in place. For the document's object shapes (fixed key sets in
fixed declaration order) stringify is injective on these JSON values, so
stringify equality of two objects is equality of their `toJson` images; on
objects whose numeric content is all finite, `toJson` is itself injective,
so there stringify comparison coincides with deep structural comparison.
-/

namespace Designo

/-- A JavaScript number: finite (rational) or one of the non-finite values. -/
inductive JsNum where
  | finite (q : ℚ)
  | nan
  | posInf
  | negInf
deriving DecidableEq, Repr

/-- Embeds JavaScript `isFinite(v)`. -/
def JsNum.isFiniteB : JsNum → Bool
  | .finite _ => true
  | _ => false

/-- Embeds JavaScript `v > 0` (NaN compares false; Infinity > 0 is true). -/
def JsNum.gtZeroB : JsNum → Bool
  | .finite q => decide (0 < q)
  | .posInf => true
  | _ => false

/-- A 3-component vector `[x, y, z]` of JavaScript numbers. -/
structure Vec3 where
  x : JsNum
  y : JsNum
  z : JsNum
deriving DecidableEq, Repr

/-- Embeds `v.every(c => isFinite(c))` on a 3-vector. -/
def Vec3.allFinite (v : Vec3) : Bool :=
  v.x.isFiniteB && v.y.isFiniteB && v.z.isFiniteB

/-- Embeds `v.every(c => isFinite(c) && c > 0)` on a 3-vector. -/
def Vec3.allFinitePos (v : Vec3) : Bool :=
  (v.x.isFiniteB && v.x.gtZeroB) && (v.y.isFiniteB && v.y.gtZeroB) &&
    (v.z.isFiniteB && v.z.gtZeroB)

/-- The `PrimitiveKind` enum of src/lib/types.ts. -/
inductive PrimitiveKind where
  | cube
  | sphere
  | cone
deriving DecidableEq, Repr

/-- Variant-specific payload of the `SceneObject` tagged union of
src/lib/types.ts: primitive (`kind`), stl (`geometryJson`, kept opaque),
or annotation (`text`, optional `normal`, optional `targetObjectId`). -/
inductive ObjVariant where
  | primitive (kind : PrimitiveKind)
  | stl (geometryJson : String)
  | anno (text : String) (normal : Option Vec3) (targetObjectId : Option String)
deriving DecidableEq, Repr

/-- A `SceneObject` of src/lib/types.ts: shared base attributes plus the
variant-specific payload. -/
structure SceneObject where
  id : String
  name : String
  visible : Bool
  position : Vec3
  rotation : Vec3
  scale : Vec3
  variant : ObjVariant
deriving DecidableEq, Repr

/-- Embeds the `obj.type === "annotation"` check. -/
def SceneObject.isAnno (o : SceneObject) : Bool :=
  match o.variant with
  | .anno _ _ _ => true
  | _ => false

/-- Embeds `(obj as AnnotationObject).targetObjectId`: the field when the
object is an annotation, `undefined` (none) otherwise. -/
def SceneObject.targetId (o : SceneObject) : Option String :=
  match o.variant with
  | .anno _ _ t => t
  | _ => none

/-- The JSON value `JSON.stringify` serializes one number to: the number
itself when finite, the literal `null` (here `none`) for NaN, Infinity and
-Infinity. -/
def JsNum.toJson : JsNum → Option ℚ
  | .finite q => some q
  | _ => none

/-- The serialized form of a 3-vector: each component as its JSON value. -/
structure Vec3Json where
  x : Option ℚ
  y : Option ℚ
  z : Option ℚ
deriving DecidableEq, Repr

/-- Serializes a 3-vector componentwise. -/
def Vec3.toJson (v : Vec3) : Vec3Json :=
  ⟨v.x.toJson, v.y.toJson, v.z.toJson⟩

/-- The serialized form of the variant payload. -/
inductive ObjVariantJson where
  | primitive (kind : PrimitiveKind)
  | stl (geometryJson : String)
  | anno (text : String) (normal : Option Vec3Json) (targetObjectId : Option String)
deriving DecidableEq, Repr

/-- Serializes the variant payload: only the numeric content (an annotation's
normal) is affected. -/
def ObjVariant.toJson : ObjVariant → ObjVariantJson
  | .primitive k => .primitive k
  | .stl g => .stl g
  | .anno t n tgt => .anno t (n.map Vec3.toJson) tgt

/-- The serialized form of a scene object. -/
structure SceneObjectJson where
  id : String
  name : String
  visible : Bool
  position : Vec3Json
  rotation : Vec3Json
  scale : Vec3Json
  variant : ObjVariantJson
deriving DecidableEq, Repr

/-- What `JSON.stringify` retains of a scene object: every number replaced
by its JSON value (`null` when non-finite), everything else verbatim; two
objects stringify equal exactly when their `toJson` images are equal. -/
def SceneObject.toJson (o : SceneObject) : SceneObjectJson :=
  ⟨o.id, o.name, o.visible, o.position.toJson, o.rotation.toJson,
    o.scale.toJson, o.variant.toJson⟩

/-- Every number carried by the object (position, rotation, scale, and an
annotation's normal when present) is finite. -/
def SceneObject.allNumsFinite (o : SceneObject) : Bool :=
  o.position.allFinite && o.rotation.allFinite && o.scale.allFinite &&
    (match o.variant with
     | .anno _ (some n) _ => n.allFinite
     | _ => true)

/-- The `{added, updated, removed}` triple of the ChangeDiffEngine. -/
structure DiffResult where
  added : List SceneObject
  updated : List SceneObject
  deleted : List SceneObject
deriving DecidableEq, Repr

/-- Embeds the diff block of `saveNow` (src/pages/Editor.tsx, lines 90-95):
`added` keeps new objects whose id no old object has; `updated` keeps new
objects whose first id-matching old object stringifies differently
(inequality of the `toJson` images); `deleted` keeps old objects whose id no
new object has. -/
def computeDiff (oldObjects newObjects : List SceneObject) : DiffResult :=
  { added := newObjects.filter fun n => !(oldObjects.any fun o => o.id == n.id)
    updated := newObjects.filter fun n =>
      match oldObjects.find? (fun o => o.id == n.id) with
      | some o => o.toJson != n.toJson
      | none => false
    deleted := oldObjects.filter fun o => !(newObjects.any fun n => n.id == o.id) }

/-- The `action` field of the socket payload in src/pages/Editor.tsx. -/
inductive SockAction where
  | add
  | update
  | delete
deriving DecidableEq, Repr

/-- An outbound `sendObjectChange(action, object?, objectId?)` call record. -/
structure OutEvent where
  action : SockAction
  object : Option SceneObject
  objectId : Option String
deriving DecidableEq, Repr

/-- The inbound `SocketData` payload of src/pages/Editor.tsx, lines 8-12. -/
structure SocketData where
  action : SockAction
  object : Option SceneObject
  objectId : Option String
deriving DecidableEq, Repr

/-- The outbound events emitted from one diff by `saveNow`
(src/pages/Editor.tsx, lines 97-99): one `add` per added object, one
`update` per updated object, one `delete` (carrying only the id) per
deleted object, in that order. -/
def diffEvents (d : DiffResult) : List OutEvent :=
  (d.added.map fun o => ⟨.add, some o, none⟩) ++
    (d.updated.map fun o => ⟨.update, some o, none⟩) ++
    (d.deleted.map fun o => ⟨.delete, none, some o.id⟩)

/-- The outbound events of one `saveNow(next, skipWebSocket)` call
(src/pages/Editor.tsx, lines 85-101): the diff events when
`connected && !skipWebSocket`, nothing otherwise. -/
def saveNowEvents (connected skipWebSocket : Bool)
    (oldObjects newObjects : List SceneObject) : List OutEvent :=
  if connected && !skipWebSocket then diffEvents (computeDiff oldObjects newObjects)
  else []

/-- Embeds `handleObjectChange` (src/pages/Editor.tsx, lines 139-160) as a
function on the document's object list: `add` appends unless an object with
the carried id exists, `update` replaces every id-matching object wholesale,
`delete` removes by id; a payload missing its required field falls through
every branch and leaves the list unchanged. -/
def handleObjectChange (objects : List SceneObject) (data : SocketData) :
    List SceneObject :=
  match data.action, data.object, data.objectId with
  | .add, some ob, _ =>
      if objects.any fun o => o.id == ob.id then objects
      else objects ++ [ob]
  | .add, none, _ => objects
  | .update, some ob, _ => objects.map fun o => if o.id == ob.id then ob else o
  | .update, none, _ => objects
  | .delete, _, some oid => objects.filter fun o => o.id != oid
  | .delete, _, none => objects

/-- Embeds `onDeleteObject` (src/pages/Editor.tsx, lines 241-246): one filter
keeping objects that neither have the deleted id nor are annotations whose
`targetObjectId` equals the deleted id. -/
def onDeleteObject (objects : List SceneObject) (id : String) :
    List SceneObject :=
  objects.filter fun o =>
    o.id != id && !(o.isAnno && o.targetId == some id)

/-- A `Partial<SceneObject>` over the base attributes, as passed to
`onUpdateObject` by the transform inputs (`{position}`, `{rotation}`,
`{scale}`) of src/pages/Editor.tsx: a field is overwritten exactly when
supplied. -/
structure ObjectUpdates where
  name : Option String
  visible : Option Bool
  position : Option Vec3
  rotation : Option Vec3
  scale : Option Vec3
deriving DecidableEq, Repr

/-- Embeds the spread merge `{ ...obj, ...updates }`: every supplied field
replaces the object's field verbatim, unsupplied fields keep their value. -/
def applyUpdates (o : SceneObject) (u : ObjectUpdates) : SceneObject :=
  { o with
    name := u.name.getD o.name
    visible := u.visible.getD o.visible
    position := u.position.getD o.position
    rotation := u.rotation.getD o.rotation
    scale := u.scale.getD o.scale }

/-- Embeds `onUpdateObject` (src/pages/Editor.tsx, lines 276-286): maps the
spread merge over id-matching objects, with no validation of the supplied
values. -/
def onUpdateObject (objects : List SceneObject) (id : String)
    (u : ObjectUpdates) : List SceneObject :=
  objects.map fun o => if o.id == id then applyUpdates o u else o

/-- The transform actually set on the rendered mesh. -/
structure MeshTransform where
  position : Vec3
  rotation : Vec3
  scale : Vec3
deriving DecidableEq, Repr

/-- Embeds the transform-validation part of `buildObject3D`
(src/components/ThreeViewport.tsx, lines 534-551): position and rotation
fall back to `[0, 0, 0]` unless all components are finite; scale falls back
to `[1, 1, 1]` unless all components are finite and strictly positive. -/
def buildObject3DTransform (obj : SceneObject) : MeshTransform :=
  { position := if obj.position.allFinite then obj.position
      else ⟨.finite 0, .finite 0, .finite 0⟩
    rotation := if obj.rotation.allFinite then obj.rotation
      else ⟨.finite 0, .finite 0, .finite 0⟩
    scale := if obj.scale.allFinitePos then obj.scale
      else ⟨.finite 1, .finite 1, .finite 1⟩ }

/-- A `{position, target}` camera pose. -/
structure CameraPose where
  position : Vec3
  target : Vec3
deriving DecidableEq, Repr

/-- The debounce state of `debouncedCameraChange`
(src/pages/Editor.tsx, lines 108-125): the pending timeout, if any, as its
fire time (in ms) and the camera pose it will send. -/
structure DebounceState where
  pending : Option (Nat × CameraPose)
deriving DecidableEq, Repr

/-- Fires the pending timeout when its fire time has been reached by `t`,
emitting its camera pose; otherwise leaves the state unchanged. -/
def fireDue (t : Nat) (s : DebounceState) : DebounceState × List CameraPose :=
  match s.pending with
  | some (ft, cam) => if ft ≤ t then (⟨none⟩, [cam]) else (s, [])
  | none => (s, [])

/-- Embeds one `debouncedCameraChange(cam)` call at time `t`: the existing
timeout is cleared and a fresh 500ms timeout carrying `cam` is set. -/
def debouncedCameraChange (t : Nat) (cam : CameraPose) (_s : DebounceState) :
    DebounceState :=
  ⟨some (t + 500, cam)⟩

/-- Runs a time-ordered list of `debouncedCameraChange` calls against the
single-threaded event loop: before each call, any timeout due by the call's
time fires; then the call clears and resets the timeout. Returns the final
state and the emitted camera-move events in order. -/
def runCalls (s : DebounceState) :
    List (Nat × CameraPose) → DebounceState × List CameraPose
  | [] => (s, [])
  | (t, cam) :: rest =>
      let fired := fireDue t s
      let s2 := debouncedCameraChange t cam fired.1
      let tail := runCalls s2 rest
      (tail.1, fired.2 ++ tail.2)

/-- Runs a burst of calls from an idle state, then lets time advance to
`flushTime`, firing any still-pending timeout. Returns every camera-move
event emitted on the wire. -/
def runBurst (calls : List (Nat × CameraPose)) (flushTime : Nat) :
    List CameraPose :=
  let r := runCalls ⟨none⟩ calls
  r.2 ++ (fireDue flushTime r.1).2

/-- `gapsOkB tPrev calls` holds when each call time is at least the previous
one and strictly less than 500ms after it (a burst with every consecutive
gap inside the quiescence window). -/
def gapsOkB : Nat → List (Nat × CameraPose) → Bool
  | _, [] => true
  | tPrev, (t, _) :: rest => tPrev ≤ t && t < tPrev + 500 && gapsOkB t rest

/-- The camera pose of the last call of the burst (`c` when none follow). -/
def lastPose (c : CameraPose) : List (Nat × CameraPose) → CameraPose
  | [] => c
  | (_, c2) :: rest => lastPose c2 rest

/-- The time of the last call of the burst (`t` when none follow). -/
def lastTime (t : Nat) : List (Nat × CameraPose) → Nat
  | [] => t
  | (t2, _) :: rest => lastTime t2 rest

/-- The selection-relevant state of the viewport: `selectedId` and
`activeAnnotationId` (the annotation focus). -/
structure SelectionState where
  selectedId : Option String
  activeFocusId : Option String
deriving DecidableEq, Repr

/-- What the single click's ray resolved to: a scene object carrying a
`__sceneObjectId`, some hit without a resolvable id, or empty space. -/
inductive ClickHit where
  | onObject (id : String)
  | onUnidentified
  | empty
deriving DecidableEq, Repr

/-- Embeds the single-click timer callback of `onMouseClick`
(src/components/ThreeViewport.tsx, lines 684-703): a hit with a resolvable
id selects it and clears the annotation focus; a hit without an id does
nothing; empty space keeps the current selection and clears only the
annotation focus. -/
def singleClickResolve (s : SelectionState) (hit : ClickHit) :
    SelectionState :=
  match hit with
  | .onObject objectId => ⟨some objectId, none⟩
  | .onUnidentified => s
  | .empty => { s with activeFocusId := none }

/-- Embeds the render-time filter of src/components/ThreeViewport.tsx,
lines 783-789: annotations are rendered only when they have no
`targetObjectId` or some object in the document carries that id. -/
def renderableAnnos (objects : List SceneObject) : List SceneObject :=
  objects.filter fun o =>
    o.isAnno &&
      (match o.targetId with
       | none => true
       | some t => objects.any fun m => m.id == t)

/-- A backend annotation record (`IAnnotation` of the Project model). -/
structure BackendAnno where
  id : String
  text : String
  position : Vec3
  normal : Option Vec3
  userId : Option String
deriving DecidableEq, Repr

/-- The stored backend project document, as read and written by
`ProjectService.updateProject`. -/
structure ProjectRecord where
  title : String
  objects : List SceneObject
  annos : List BackendAnno
  camera : Option CameraPose
  updatedAt : Nat
deriving DecidableEq, Repr

/-- The `UpdateProjectData` payload of backend/src/services/projectService.ts:
each top-level field is optional. -/
structure UpdateProjectData where
  objects : Option (List SceneObject)
  annos : Option (List BackendAnno)
  camera : Option CameraPose
deriving DecidableEq, Repr

/-- Embeds `ProjectService.updateProject` (projectService.ts, lines 85-106):
the update document always refreshes `updatedAt` and additionally sets
exactly the supplied top-level fields; `findByIdAndUpdate` leaves every
field not in the update document at its stored value. -/
def updateProject (p : ProjectRecord) (data : UpdateProjectData) (now : Nat) :
    ProjectRecord :=
  { title := p.title
    objects := data.objects.getD p.objects
    annos := data.annos.getD p.annos
    camera := match data.camera with
      | some c => some c
      | none => p.camera
    updatedAt := now }

/-! ### Sample data used by the witness theorems -/

/-- A finite 3-vector from three rationals. -/
def v3 (a b c : ℚ) : Vec3 := ⟨.finite a, .finite b, .finite c⟩

/-- A sample cube with id `"a"`. -/
def objA : SceneObject :=
  ⟨"a", "Cube", true, v3 0 1 0, v3 0 0 0, v3 1 1 1, .primitive .cube⟩

/-- A sample sphere with id `"b"`. -/
def objB : SceneObject :=
  ⟨"b", "Sphere", true, v3 2 0 0, v3 0 0 0, v3 1 1 1, .primitive .sphere⟩

/-- A sample annotation with id `"n"` attached to the object with id `"a"`. -/
def annoA : SceneObject :=
  ⟨"n", "Annotation 1", true, v3 0 1 0, v3 0 0 0, v3 1 1 1,
    .anno "check this" (some (v3 0 1 0)) (some "a")⟩

/-- The cube `objA` moved along x. -/
def objA2 : SceneObject := { objA with position := v3 5 1 0 }

/-- A sample stored backend project. -/
def projEx : ProjectRecord :=
  ⟨"demo", [objA], [], some ⟨v3 8 6 8, v3 0 0 0⟩, 41⟩

/-- A cube with id `"i"` whose x-position is Infinity. -/
def objInf : SceneObject :=
  ⟨"i", "Cube", true, ⟨.posInf, .finite 0, .finite 0⟩, v3 0 0 0, v3 1 1 1,
    .primitive .cube⟩

/-- The same cube with its x-position changed to -Infinity: structurally
different content that `JSON.stringify` serializes identically. -/
def objNegInf : SceneObject :=
  { objInf with position := ⟨.negInf, .finite 0, .finite 0⟩ }

/-! ### Theorems -/

/-- C2: applying any inbound object-changed event goes through
`saveNow(next, true)`, whose broadcast block is guarded by
`connected && !skipWebSocket`; with `skipWebSocket = true` it emits no
`sendObjectChange` call, whatever the event and the document. -/
theorem inbound_apply_broadcasts_nothing (connected : Bool)
    (objects : List SceneObject) (data : SocketData) :
    saveNowEvents connected true objects (handleObjectChange objects data) = [] := by
  simp [saveNowEvents]

/-- C3: the local delete of id `X` keeps exactly the objects that neither
carry id `X` nor are annotations targeting `X` (so it removes the object and
every annotation attached to it, and nothing else), and afterwards no
annotation in the document targets `X`. -/
theorem delete_cascades_annotations (objects : List SceneObject) (x : String) :
    (∀ o, o ∈ onDeleteObject objects x ↔
      o ∈ objects ∧ ¬ o.id = x ∧ ¬ (o.isAnno = true ∧ o.targetId = some x)) ∧
    (∀ o ∈ onDeleteObject objects x, o.isAnno = true → ¬ o.targetId = some x) := by
  have hchar : ∀ o, o ∈ onDeleteObject objects x ↔
      o ∈ objects ∧ ¬ o.id = x ∧ ¬ (o.isAnno = true ∧ o.targetId = some x) := by
    intro o
    rw [onDeleteObject, List.mem_filter]
    cases h : o.isAnno <;> simp [h, and_assoc]
  refine ⟨hchar, fun o ho hanno htgt => ?_⟩
  exact ((hchar o).mp ho).2.2 ⟨hanno, htgt⟩

/-- Witness for C3: deleting `"a"` from `[objA, objB, annoA]` keeps `objB`
and removes the annotation `annoA` attached to `"a"`. -/
theorem delete_cascades_annotations_witness :
    objB ∈ onDeleteObject [objA, objB, annoA] "a" ∧
      annoA ∉ onDeleteObject [objA, objB, annoA] "a" := by
  refine ⟨((delete_cascades_annotations [objA, objB, annoA] "a").1 objB).mpr
    ⟨by decide, by decide, by decide⟩, fun hmem => ?_⟩
  exact ((((delete_cascades_annotations [objA, objB, annoA] "a").1 annoA).mp
    hmem).2.2) ⟨rfl, rfl⟩

/-- C4: an inbound `add` is a no-op when an object with the carried id
already exists, and applying the same `add` event twice yields exactly the
document obtained by applying it once. -/
theorem inbound_add_idempotent (objects : List SceneObject) (ob : SceneObject)
    (oid : Option String) :
    ((objects.any fun o => o.id == ob.id) = true →
      handleObjectChange objects ⟨.add, some ob, oid⟩ = objects) ∧
    handleObjectChange (handleObjectChange objects ⟨.add, some ob, oid⟩)
        ⟨.add, some ob, oid⟩ =
      handleObjectChange objects ⟨.add, some ob, oid⟩ := by
  constructor
  · intro h
    simp [handleObjectChange, h]
  · by_cases h : (objects.any fun o => o.id == ob.id) = true
    · simp [handleObjectChange, h]
    · simp [handleObjectChange, h]

/-- Witness for C4: adding `objA` to a document that already contains id
`"a"` leaves the document unchanged. -/
theorem inbound_add_idempotent_witness :
    (([objA].any fun o => o.id == objA.id) = true) ∧
      handleObjectChange [objA] ⟨.add, some objA, none⟩ = [objA] :=
  ⟨by decide, (inbound_add_idempotent [objA] objA none).1 (by decide)⟩

/-- C5: an inbound `update` replaces each id-matching object wholesale with
the carried object and leaves every other position of the list unchanged
(stated pointwise over indices); an inbound `delete` keeps exactly the
objects with a different id and is a no-op when no object carries the id. -/
theorem inbound_update_delete_semantics (objects : List SceneObject)
    (ob : SceneObject) (x : Option String) (oid : String)
    (d : Option SceneObject) :
    (∀ i : Nat, (handleObjectChange objects ⟨.update, some ob, x⟩)[i]? =
      (objects[i]?).map fun o => if o.id == ob.id then ob else o) ∧
    (∀ o, o ∈ handleObjectChange objects ⟨.delete, d, some oid⟩ ↔
      o ∈ objects ∧ ¬ o.id = oid) ∧
    ((∀ o ∈ objects, ¬ o.id = oid) →
      handleObjectChange objects ⟨.delete, d, some oid⟩ = objects) := by
  refine ⟨fun i => ?_, fun o => ?_, fun h => ?_⟩
  · simp [handleObjectChange]
  · simp [handleObjectChange, List.mem_filter]
  · rw [handleObjectChange, List.filter_eq_self]
    intro o ho
    simpa using h o ho

/-- Witness for C5: deleting an id absent from the document is a no-op. -/
theorem inbound_update_delete_semantics_witness :
    (∀ o ∈ [objA], ¬ o.id = "zzz") ∧
      handleObjectChange [objA] ⟨.delete, none, some "zzz"⟩ = [objA] :=
  ⟨by decide,
    (inbound_update_delete_semantics [objA] objA none "zzz" none).2.2 (by decide)⟩

/-- C10: an inbound `delete` keeps exactly the objects whose id differs from
the carried `objectId`; in particular an annotation targeting the deleted id
survives the remote delete (no cascade on the inbound path), and such a
dangling annotation is excluded from the rendered annotations of the
resulting document. -/
theorem inbound_delete_no_cascade (objects : List SceneObject)
    (d : Option SceneObject) (oid : String) :
    (∀ o, o ∈ handleObjectChange objects ⟨.delete, d, some oid⟩ ↔
      o ∈ objects ∧ ¬ o.id = oid) ∧
    (∀ o ∈ objects, o.isAnno = true → o.targetId = some oid → ¬ o.id = oid →
      o ∈ handleObjectChange objects ⟨.delete, d, some oid⟩) ∧
    (∀ o ∈ handleObjectChange objects ⟨.delete, d, some oid⟩,
      o.targetId = some oid →
      o ∉ renderableAnnos (handleObjectChange objects ⟨.delete, d, some oid⟩)) := by
  have hmem : ∀ o, o ∈ handleObjectChange objects ⟨.delete, d, some oid⟩ ↔
      o ∈ objects ∧ ¬ o.id = oid := by
    intro o
    simp [handleObjectChange, List.mem_filter]
  refine ⟨hmem, fun o ho _ _ hne => (hmem o).mpr ⟨ho, hne⟩, fun o ho htgt hren => ?_⟩
  rw [renderableAnnos, List.mem_filter] at hren
  have hany : ((handleObjectChange objects ⟨.delete, d, some oid⟩).any
      fun m => m.id == oid) = false := by
    rw [List.any_eq_false]
    intro m hm
    simpa using ((hmem m).mp hm).2
  rw [htgt] at hren
  simp [hany] at hren

/-- Witness for C10: remotely deleting `"a"` from `[objA, annoA]` keeps the
annotation `annoA` (which targets `"a"`) in the document, yet `annoA` is not
among the rendered annotations afterwards. -/
theorem inbound_delete_no_cascade_witness :
    annoA ∈ handleObjectChange [objA, annoA] ⟨.delete, none, some "a"⟩ ∧
      annoA ∉ renderableAnnos (handleObjectChange [objA, annoA]
        ⟨.delete, none, some "a"⟩) := by
  have h := inbound_delete_no_cascade [objA, annoA] none "a"
  have hmem := h.2.1 annoA (by decide) rfl rfl (by decide)
  exact ⟨hmem, h.2.2 annoA hmem rfl⟩

/-- C9: a partial save overwrites exactly the supplied top-level fields
(`objects`, `annotations`, `camera`): an unsupplied field retains its stored
value, a supplied one is replaced wholesale, `title` is untouched, and only
`updatedAt` is additionally refreshed. -/
theorem partial_save_overwrites_only_supplied (p : ProjectRecord)
    (data : UpdateProjectData) (now : Nat) :
    ((data.objects = none → (updateProject p data now).objects = p.objects) ∧
      ∀ os, data.objects = some os → (updateProject p data now).objects = os) ∧
    ((data.camera = none → (updateProject p data now).camera = p.camera) ∧
      ∀ c, data.camera = some c → (updateProject p data now).camera = some c) ∧
    ((data.annos = none → (updateProject p data now).annos = p.annos) ∧
      ∀ a, data.annos = some a → (updateProject p data now).annos = a) ∧
    (updateProject p data now).title = p.title ∧
    (updateProject p data now).updatedAt = now := by
  refine ⟨⟨fun h => ?_, fun os h => ?_⟩, ⟨fun h => ?_, fun c h => ?_⟩,
    ⟨fun h => ?_, fun a h => ?_⟩, rfl, rfl⟩ <;> simp [updateProject, h]

/-- Witness for C9: saving only `objects` leaves the stored camera, title and
annotations untouched and replaces the object list. -/
theorem partial_save_overwrites_only_supplied_witness :
    (updateProject projEx ⟨some [objB], none, none⟩ 99).camera = projEx.camera ∧
      (updateProject projEx ⟨some [objB], none, none⟩ 99).objects = [objB] ∧
      (updateProject projEx ⟨some [objB], none, none⟩ 99).title = projEx.title :=
  ⟨(partial_save_overwrites_only_supplied projEx ⟨some [objB], none, none⟩ 99).2.1.1
      rfl,
    (partial_save_overwrites_only_supplied projEx ⟨some [objB], none, none⟩ 99).1.2
      [objB] rfl,
    (partial_save_overwrites_only_supplied projEx ⟨some [objB], none, none⟩ 99).2.2.2.1⟩

/-- In a list whose ids are pairwise distinct, `find?` on an id matches the
unique member carrying that id. -/
theorem find_by_id_of_nodup (prev : List SceneObject)
    (hnd : (prev.map SceneObject.id).Nodup) (o : SceneObject) (ho : o ∈ prev)
    (i : String) (hid : o.id = i) :
    prev.find? (fun o2 => o2.id == i) = some o := by
  induction prev with
  | nil => cases ho
  | cons hd tl ih =>
      rw [List.map_cons, List.nodup_cons] at hnd
      rcases List.mem_cons.mp ho with h | h
      · subst h
        simp [List.find?, hid]
      · have hne : ¬ hd.id = i := by
          intro he
          apply hnd.1
          rw [he.trans hid.symm]
          exact List.mem_map_of_mem SceneObject.id h
        simp only [List.find?]
        rw [show (hd.id == i) = false by simpa using hne]
        exact ih hnd.2 h

/-- Serialization is injective on finite numbers. -/
theorem jsNum_toJson_inj (a b : JsNum) (ha : a.isFiniteB = true)
    (hb : b.isFiniteB = true) (h : a.toJson = b.toJson) : a = b := by
  cases a <;> cases b <;> simp_all [JsNum.isFiniteB, JsNum.toJson]

/-- Serialization is injective on all-finite 3-vectors. -/
theorem vec3_toJson_inj (u v : Vec3) (hu : u.allFinite = true)
    (hv : v.allFinite = true) (h : u.toJson = v.toJson) : u = v := by
  obtain ⟨ux, uy, uz⟩ := u
  obtain ⟨vx, vy, vz⟩ := v
  simp only [Vec3.allFinite, Bool.and_eq_true] at hu hv
  simp only [Vec3.toJson, Vec3Json.mk.injEq] at h
  rw [Vec3.mk.injEq]
  exact ⟨jsNum_toJson_inj ux vx hu.1.1 hv.1.1 h.1,
    jsNum_toJson_inj uy vy hu.1.2 hv.1.2 h.2.1,
    jsNum_toJson_inj uz vz hu.2 hv.2 h.2.2⟩

/-- Serialization is injective on objects whose numbers are all finite, so
there `JSON.stringify` comparison coincides with structural comparison. -/
theorem sceneObject_toJson_inj (a b : SceneObject)
    (ha : a.allNumsFinite = true) (hb : b.allNumsFinite = true)
    (h : a.toJson = b.toJson) : a = b := by
  obtain ⟨aid, anm, avis, apos, arot, ascl, avar⟩ := a
  obtain ⟨bid, bnm, bvis, bpos, brot, bscl, bvar⟩ := b
  simp only [SceneObject.allNumsFinite, Bool.and_eq_true] at ha hb
  simp only [SceneObject.toJson, SceneObjectJson.mk.injEq] at h
  obtain ⟨h1, h2, h3, h4, h5, h6, h7⟩ := h
  subst h1
  subst h2
  subst h3
  rw [SceneObject.mk.injEq]
  refine ⟨rfl, rfl, rfl, vec3_toJson_inj apos bpos ha.1.1.1 hb.1.1.1 h4,
    vec3_toJson_inj arot brot ha.1.1.2 hb.1.1.2 h5,
    vec3_toJson_inj ascl bscl ha.1.2 hb.1.2 h6, ?_⟩
  cases avar with
  | primitive ka =>
      cases bvar with
      | primitive kb => simpa [ObjVariant.toJson] using h7
      | stl gb => simp [ObjVariant.toJson] at h7
      | anno tb nb tgb => simp [ObjVariant.toJson] at h7
  | stl ga =>
      cases bvar with
      | primitive kb => simp [ObjVariant.toJson] at h7
      | stl gb => simpa [ObjVariant.toJson] using h7
      | anno tb nb tgb => simp [ObjVariant.toJson] at h7
  | anno ta na tga =>
      cases bvar with
      | primitive kb => simp [ObjVariant.toJson] at h7
      | stl gb => simp [ObjVariant.toJson] at h7
      | anno tb nb tgb =>
          simp only [ObjVariant.toJson, ObjVariantJson.anno.injEq] at h7
          obtain ⟨ht, hn, htg⟩ := h7
          subst ht
          subst htg
          rw [ObjVariant.anno.injEq]
          refine ⟨rfl, ?_, rfl⟩
          cases na with
          | none =>
              cases nb with
              | none => rfl
              | some v => simp at hn
          | some u =>
              cases nb with
              | none => simp at hn
              | some v =>
                  have hu : u.allFinite = true := by simpa using ha.2
                  have hv : v.allFinite = true := by simpa using hb.2
                  simp only [Option.map_some', Option.some.injEq] at hn
                  rw [vec3_toJson_inj u v hu hv hn]

/-- Counterexample to C1: a change of `objInf`'s x-position from Infinity to
-Infinity is a structural (deep) content change on an id present in both
snapshots, yet the diff classifies nothing as updated, because
`JSON.stringify` serializes both values to `null`. -/
theorem diff_misses_nonfinite_change :
    ¬ objInf = objNegInf ∧ objInf.id = objNegInf.id ∧
      (computeDiff [objInf] [objNegInf]).updated = [] :=
  ⟨by decide, rfl, rfl⟩

/-- C1 (amended): over documents with unique ids, the commit-time diff
classifies `added` as the current objects whose id no previous object
carries, `deleted` as the previous objects whose id no current object
carries, and `updated` as the current objects for which a previous object
carries the same id but serializes differently under `JSON.stringify`
(equality of `toJson` images, which collapses NaN, Infinity and -Infinity to
`null` and on all-finite content coincides with deep structural
comparison); diffing a snapshot against itself yields three empty sets, and
the commit then broadcasts no object-change event at all. -/
theorem diff_classifies_by_stringify (prev cur : List SceneObject)
    (hnd : (prev.map SceneObject.id).Nodup) :
    (∀ n, n ∈ (computeDiff prev cur).added ↔
      n ∈ cur ∧ ∀ o ∈ prev, ¬ o.id = n.id) ∧
    (∀ o, o ∈ (computeDiff prev cur).deleted ↔
      o ∈ prev ∧ ∀ n ∈ cur, ¬ n.id = o.id) ∧
    (∀ n, n ∈ (computeDiff prev cur).updated ↔
      n ∈ cur ∧ ∃ o ∈ prev, o.id = n.id ∧ ¬ o.toJson = n.toJson) ∧
    (∀ a b : SceneObject, a.allNumsFinite = true → b.allNumsFinite = true →
      (a.toJson = b.toJson ↔ a = b)) ∧
    computeDiff prev prev = ⟨[], [], []⟩ ∧
    ∀ connected : Bool, saveNowEvents connected false prev prev = [] := by
  have hupd : ∀ n, n ∈ (computeDiff prev cur).updated ↔
      n ∈ cur ∧ ∃ o ∈ prev, o.id = n.id ∧ ¬ o.toJson = n.toJson := by
    intro n
    rw [computeDiff]
    simp only [List.mem_filter]
    constructor
    · rintro ⟨hm, hp⟩
      refine ⟨hm, ?_⟩
      rcases hf : prev.find? (fun o2 => o2.id == n.id) with _ | o
      · rw [hf] at hp; cases hp
      · rw [hf] at hp
        refine ⟨o, List.mem_of_find?_eq_some hf, ?_, ?_⟩
        · simpa using List.find?_some hf
        · simpa using hp
    · rintro ⟨hm, o, ho, hid, hne⟩
      refine ⟨hm, ?_⟩
      rw [find_by_id_of_nodup prev hnd o ho n.id hid]
      simpa using hne
  have hself : computeDiff prev prev = ⟨[], [], []⟩ := by
    have ha : (computeDiff prev prev).added = [] := by
      rw [computeDiff]
      simp only [List.filter_eq_nil_iff]
      intro n hn
      simp only [Bool.not_eq_true', Bool.not_eq_false]
      exact List.any_eq_true.mpr ⟨n, hn, by simp⟩
    have hd : (computeDiff prev prev).deleted = [] := by
      rw [computeDiff]
      simp only [List.filter_eq_nil_iff]
      intro n hn
      simp only [Bool.not_eq_true', Bool.not_eq_false]
      exact List.any_eq_true.mpr ⟨n, hn, by simp⟩
    have hu : (computeDiff prev prev).updated = [] := by
      rw [computeDiff]
      simp only [List.filter_eq_nil_iff]
      intro n hn
      rw [find_by_id_of_nodup prev hnd n hn n.id rfl]
      simp
    cases hcd : computeDiff prev prev
    rw [hcd] at ha hd hu
    simp_all
  refine ⟨fun n => ?_, fun o => ?_, hupd,
    fun a b ha hb =>
      ⟨fun h => sceneObject_toJson_inj a b ha hb h, fun h => by rw [h]⟩,
    hself, fun connected => ?_⟩
  · simp [computeDiff, List.mem_filter, List.any_eq_false]
  · simp [computeDiff, List.mem_filter, List.any_eq_false]
  · rw [saveNowEvents, hself]
    simp [diffEvents]

/-- Witness for C1 (amended): with unique-id snapshots `[objA]` and
`[objA2, objB]`, `objB` is classified as added and `objA2` (same id as
`objA`, moved along a finite axis) as updated; on the all-finite `objA` and
`objA2` serialized comparison agrees with structural comparison; diffing
`[objA]` against itself yields three empty sets. -/
theorem diff_classifies_by_stringify_witness :
    objB ∈ (computeDiff [objA] [objA2, objB]).added ∧
      objA2 ∈ (computeDiff [objA] [objA2, objB]).updated ∧
      ¬ objA.toJson = objA2.toJson ∧
      computeDiff [objA] [objA] = ⟨[], [], []⟩ := by
  have h := diff_classifies_by_stringify [objA] [objA2, objB] (by decide)
  have h2 := diff_classifies_by_stringify [objA] [objA] (by decide)
  refine ⟨(h.1 objB).mpr ⟨by simp, by decide⟩,
    (h.2.2.1 objA2).mpr ⟨by simp, objA, by simp, by decide, by decide⟩,
    fun hj => ?_, h2.2.2.2.2.1⟩
  exact (by decide : ¬ objA = objA2)
    ((h.2.2.2.1 objA objA2 (by decide) (by decide)).mp hj)

/-- While every consecutive gap stays under 500ms, a pending debounce timer
never fires: each call just replaces it, so no event is emitted during the
burst and the pending timer ends up carrying the last call's pose. -/
theorem runCalls_within_window (calls : List (Nat × CameraPose)) :
    ∀ (tPrev : Nat) (cam0 : CameraPose), gapsOkB tPrev calls = true →
      runCalls ⟨some (tPrev + 500, cam0)⟩ calls =
        (⟨some (lastTime tPrev calls + 500, lastPose cam0 calls)⟩, []) := by
  induction calls with
  | nil => intro tPrev cam0 _; simp [runCalls, lastTime, lastPose]
  | cons hd tl ih =>
      intro tPrev cam0 h
      obtain ⟨t, cam⟩ := hd
      rw [gapsOkB] at h
      simp only [Bool.and_eq_true, decide_eq_true_eq] at h
      have hnotdue : ¬ (tPrev + 500 ≤ t) := by omega
      simp only [runCalls, fireDue, hnotdue, if_false, debouncedCameraChange,
        lastTime, lastPose]
      rw [ih t cam h.2]
      simp

/-- C6: for any burst of `debouncedCameraChange` calls whose consecutive
gaps are all under the 500ms quiescence window, at most one camera-move
event reaches the wire, and any emitted event carries exactly the pose of
the final call of the burst. -/
theorem camera_moves_coalesced (t1 : Nat) (c1 : CameraPose)
    (rest : List (Nat × CameraPose)) (flushTime : Nat)
    (h : gapsOkB t1 rest = true) :
    (runBurst ((t1, c1) :: rest) flushTime).length ≤ 1 ∧
      ∀ e ∈ runBurst ((t1, c1) :: rest) flushTime, e = lastPose c1 rest := by
  have hrun : runCalls ⟨none⟩ ((t1, c1) :: rest) =
      (⟨some (lastTime t1 rest + 500, lastPose c1 rest)⟩, []) := by
    simp only [runCalls, fireDue, debouncedCameraChange]
    rw [runCalls_within_window rest t1 c1 h]
    simp
  rw [runBurst, hrun]
  simp only [fireDue, List.nil_append]
  by_cases hdue : lastTime t1 rest + 500 ≤ flushTime
  · simp [hdue]
  · simp [hdue]

/-- Witness for C6: three calls at 0ms, 100ms and 300ms flushed at 2000ms
emit at most one event, and any emitted event is the 300ms pose. -/
theorem camera_moves_coalesced_witness :
    gapsOkB 0 [(100, ⟨v3 1 0 0, v3 0 0 0⟩), (300, ⟨v3 2 0 0, v3 0 0 0⟩)] = true ∧
      (runBurst [(0, ⟨v3 0 0 0, v3 0 0 0⟩), (100, ⟨v3 1 0 0, v3 0 0 0⟩),
          (300, ⟨v3 2 0 0, v3 0 0 0⟩)] 2000).length ≤ 1 ∧
      ∀ e ∈ runBurst [(0, ⟨v3 0 0 0, v3 0 0 0⟩), (100, ⟨v3 1 0 0, v3 0 0 0⟩),
          (300, ⟨v3 2 0 0, v3 0 0 0⟩)] 2000,
        e = lastPose ⟨v3 0 0 0, v3 0 0 0⟩
          [(100, ⟨v3 1 0 0, v3 0 0 0⟩), (300, ⟨v3 2 0 0, v3 0 0 0⟩)] :=
  ⟨by decide,
    camera_moves_coalesced 0 ⟨v3 0 0 0, v3 0 0 0⟩
      [(100, ⟨v3 1 0 0, v3 0 0 0⟩), (300, ⟨v3 2 0 0, v3 0 0 0⟩)] 2000 (by decide)⟩

/-- An update payload carrying a NaN x-position. -/
def nanUpd : ObjectUpdates :=
  ⟨none, none, some ⟨.nan, .finite 0, .finite 0⟩, none, none⟩

/-- Counterexample to C7: the local mutation path `onUpdateObject` applies a
non-finite transform verbatim — updating `objA` (id `"a"`) with a NaN
x-position stores the NaN into the document instead of rejecting it or
coercing it to the last valid value. -/
theorem document_stores_nan_transform :
    onUpdateObject [objA] "a" nanUpd =
      [{ objA with position := ⟨.nan, .finite 0, .finite 0⟩ }] ∧
      ((onUpdateObject [objA] "a" nanUpd).all fun o => o.position.allFinite)
        = false := by
  constructor <;> rfl

/-- C7 (amended): finiteness is enforced only at presentation time —
`buildObject3D` always hands the renderer a finite position and rotation and
a finite, strictly positive scale (falling back to `[0,0,0]` / `[1,1,1]`),
while the document mutation path `onUpdateObject` stores a supplied
position verbatim, finite or not. -/
theorem transform_coerced_at_render_only (obj : SceneObject)
    (u : ObjectUpdates) (p : Vec3) :
    ((buildObject3DTransform obj).position.allFinite = true ∧
      (buildObject3DTransform obj).rotation.allFinite = true ∧
      (buildObject3DTransform obj).scale.allFinitePos = true) ∧
    (u.position = some p → (applyUpdates obj u).position = p) := by
  refine ⟨⟨?_, ?_, ?_⟩, fun h => ?_⟩
  · by_cases hp : obj.position.allFinite = true
    · simp [buildObject3DTransform, hp]
    · dsimp only [buildObject3DTransform]
      rw [if_neg hp]
      rfl
  · by_cases hp : obj.rotation.allFinite = true
    · simp [buildObject3DTransform, hp]
    · dsimp only [buildObject3DTransform]
      rw [if_neg hp]
      rfl
  · by_cases hp : obj.scale.allFinitePos = true
    · simp [buildObject3DTransform, hp]
    · dsimp only [buildObject3DTransform]
      rw [if_neg hp]
      rfl
  · simp [applyUpdates, h]

/-- Witness for C7 (amended): the NaN position stored by `onUpdateObject` is
handed to the renderer coerced to a finite one. -/
theorem transform_coerced_at_render_only_witness :
    (applyUpdates objA nanUpd).position = ⟨.nan, .finite 0, .finite 0⟩ ∧
      (buildObject3DTransform (applyUpdates objA nanUpd)).position.allFinite
        = true :=
  ⟨(transform_coerced_at_render_only objA nanUpd
      ⟨.nan, .finite 0, .finite 0⟩).2 rfl,
    (transform_coerced_at_render_only (applyUpdates objA nanUpd) nanUpd
      ⟨.nan, .finite 0, .finite 0⟩).1.1⟩

/-- Counterexample to C8: with object `"a"` selected and an annotation
focused, resolving a single click on empty space does not clear
`selectedId` — the object stays selected. -/
theorem empty_click_keeps_selection_counterexample :
    ¬ (singleClickResolve ⟨some "a", some "x"⟩ .empty).selectedId = none := by
  decide

/-- C8 (amended): a single click on empty space (no second click within the
300ms window) leaves `selectedId` unchanged and clears only the active
annotation focus. -/
theorem empty_click_keeps_selection (s : SelectionState) :
    singleClickResolve s .empty = ⟨s.selectedId, none⟩ := by
  cases s
  rfl

end Designo
